import Mathlib

/-!
Verification of the `go-ratelimiter` distributed rate limiter.

The four rate-limiting algorithms are Lua procedures executed atomically inside
Redis (`lua_script.go`); the Go side (`limiter.go`, `init.go`) normalizes
configuration, derives the storage key, loads the scripts and invokes them.
Since each procedure runs atomically on the store, its semantics is a pure
state-transition function on the key's stored state; we embed each procedure as
such a function, Redis hashes becoming association lists and Redis strings
becoming integers.  Lua numbers are embedded as `Int` (all arguments passed by
the Go side are `int64`); Lua `math.floor(a/b)` is `Int.fdiv` and
`math.fmod` is `Int.tmod` (C-style truncating remainder).
-/

/-- LimiterType: the four algorithm types (`limiter.go`). -/
inductive LimiterType where
  | FixedWindow
  | SlideWindow
  | TokenBucket
  | LeakyBucket
deriving DecidableEq, Repr

/-- The string name of each limiter type
(`FixedWindowType LimiterType = "FixedWindow"`, ... in `limiter.go`). -/
def LimiterType.name : LimiterType → String
  | .FixedWindow => "FixedWindow"
  | .SlideWindow => "SlideWindow"
  | .TokenBucket => "TokenBucket"
  | .LeakyBucket => "LeakyBucket"

/-- MaxBucketCapacity: Redis single-shard capacity threshold (`limiter.go`). -/
def MaxBucketCapacity : Int := 5000

/-- NoScriptMsg: the sentinel error message Redis returns when an EVALSHA digest
is not cached (`script.go`). -/
def NoScriptMsg : String := "NOSCRIPT No matching script. Please use EVAL."

/-! ## Fixed Window procedure (`luaScriptMap["FixedWindowScript"]`, `lua_script.go`)

State of the Redis string key: its integer value (`GET` of an absent key reads
as 0, and `INCR` of an absent key stores 1, so value 0 and absence coincide) and
its expiration (`none` when no `EXPIRE` was issued). -/

/-- State of a Fixed Window key: the counter (0 for an absent key) and the
expiration last set on it, if any. -/
structure FixedWindowState where
  counter : Int
  expire : Option Int
deriving DecidableEq, Repr

/-- The Fixed Window Lua procedure.  `timeRangeArg`/`expirationArg` model
`ARGV[2]`/`ARGV[3]` (`nil` when absent); `timeRange` defaults to 1 and
`expiration` defaults to `math.ceil(timeRange * 2)` (exact on integers).
Returns the script's return value together with the post-call key state. -/
def fixedWindowScript (limit : Int) (timeRangeArg expirationArg : Option Int)
    (st : FixedWindowState) : Int × FixedWindowState :=
  let timeRange := timeRangeArg.getD 1
  let expiration := expirationArg.getD (timeRange * 2)
  -- if current >= limit then return 0
  if limit ≤ st.counter then (0, st)
  else
    -- current = redis.call('INCR', key)
    let current := st.counter + 1
    -- if current == 1 then redis.call('EXPIRE', key, expiration) end
    let st' : FixedWindowState :=
      { counter := current
        expire := if current = 1 then some expiration else st.expire }
    -- return limit - current + 1
    (limit - current + 1, st')

/-- Return values of `n` successive Fixed Window invocations on one key inside a
single window, starting from an absent key, with all three arguments passed the
way `doFixedWindowLimiter` passes them. -/
def fixedWindowRets (limit : Int) (n : Nat) : List Int :=
  (List.range n).foldl
    (fun acc _ =>
      let st := acc.2
      let r := fixedWindowScript limit (some 1) (some 300) st
      (acc.1 ++ [r.1], r.2))
    (([] : List Int), ({ counter := 0, expire := none } : FixedWindowState))
  |>.1

/-! ## Sliding Window procedure (`luaScriptMap["SlideWindowScript"]`) -/

/-- Ceiling division of integers, `math.ceil(a / b)` for `b > 0`. -/
def ceilDivInt (a b : Int) : Int := -((-a) / b)

/-- Sub-window width: `ceil(timeRange / 1000)` when `timeRange > 1000`, else 1
(when `timeRange ≤ 1000` the script does not rescale times). -/
def slideLittleWin (timeRangeMs : Int) : Int :=
  if 1000 < timeRangeMs then ceilDivInt timeRangeMs 1000 else 1

/-- The truncated time used as the current sub-bucket field
(`newTime = math.floor(curTime / littleWin)` when rescaling, else `curTime`). -/
def slideNewTime (curTime timeRangeMs : Int) : Int :=
  if 1000 < timeRangeMs then Int.fdiv curTime (ceilDivInt timeRangeMs 1000)
  else curTime

/-- The live-window span in truncated units
(`diffVal = math.floor(timeRange / littleWin)` when rescaling, else `timeRange`). -/
def slideDiffVal (timeRangeMs : Int) : Int :=
  if 1000 < timeRangeMs then Int.fdiv timeRangeMs (ceilDivInt timeRangeMs 1000)
  else timeRangeMs

/-- Sum of the counts of live sub-buckets: those whose field `t` satisfies
`newTime - t < diffVal` (the loop's accumulation into `beforeCount`). -/
def liveSum (newTime diffVal : Int) (buckets : List (Int × Int)) : Int :=
  (buckets.filter (fun p => newTime - p.1 < diffVal)).foldl
    (fun acc p => acc + p.2) 0

/-- The sub-buckets surviving the loop's lazy eviction: every field with
`newTime - t >= diffVal` is `HDEL`-ed, the rest are untouched. -/
def evictExpired (newTime diffVal : Int) (buckets : List (Int × Int)) :
    List (Int × Int) :=
  buckets.filter (fun p => newTime - p.1 < diffVal)

/-- `HINCRBY key field 1`: increment the field's value if present, otherwise
create it with value 1. -/
def hincrBy (field : Int) (buckets : List (Int × Int)) : List (Int × Int) :=
  if buckets.any (fun p => p.1 = field) then
    buckets.map (fun p => if p.1 = field then (p.1, p.2 + 1) else p)
  else buckets ++ [(field, 1)]

/-- Count stored in a sub-bucket field (0 when the field is absent). -/
def bucketCount (field : Int) (buckets : List (Int × Int)) : Int :=
  ((buckets.find? (fun p => p.1 = field)).map (·.2)).getD 0

/-- State of a Sliding Window key: the hash of sub-bucket counts and the key's
expiration, if one was set. -/
structure SlideWindowState where
  buckets : List (Int × Int)
  expire : Option Int
deriving DecidableEq, Repr

/-- The Sliding Window Lua procedure.  Arguments are `limitCount`, `curTime`
(ms), `timeRange` (seconds; multiplied by 1000 on entry) and `expiration`.
Returns the script's return value and the post-call key state. -/
def slideWindowScript (limitCount curTime timeRangeSec expiration : Int)
    (st : SlideWindowState) : Int × SlideWindowState :=
  let timeRange := timeRangeSec * 1000
  let newTime := slideNewTime curTime timeRange
  let diffVal := slideDiffVal timeRange
  let beforeCount := liveSum newTime diffVal st.buckets
  let survivors := evictExpired newTime diffVal st.buckets
  -- if limitCount <= beforeCount then return 0
  if limitCount ≤ beforeCount then (0, { st with buckets := survivors })
  else
    -- HINCRBY current sub-bucket, EXPIRE key, return limitCount - beforeCount
    (limitCount - beforeCount,
      { buckets := hincrBy newTime survivors, expire := some expiration })

/-! ## Token Bucket procedure (`luaScriptMap["TokenBucketScript"]`) -/

/-- Stored fields of an initialized token-bucket hash. -/
structure TokenBucket where
  lastRefillTime : Int
  tokensRemaining : Int
deriving DecidableEq, Repr

/-- Result of one Token Bucket invocation: return value, post-call bucket state,
and the `PEXPIRE` milliseconds issued (only on first call). -/
structure TokenBucketResult where
  ret : Int
  bucket : TokenBucket
  pexpire : Option Int
deriving DecidableEq, Repr

/-- The Token Bucket Lua procedure.  `none` models an uninitialized key
(`HGETALL` returned an empty table).  `math.floor(a / b)` is `Int.fdiv`,
`math.fmod` is `Int.tmod`. -/
def tokenBucketScript (intervalPerPermit curTime bucketMaxTokens
    resetBucketInterval initTokens : Int) (st : Option TokenBucket) :
    TokenBucketResult :=
  match st with
  | none =>
      -- first call: initialize and return max(1, currentTokens), no decrement
      { ret := max 1 initTokens
        bucket := { lastRefillTime := curTime, tokensRemaining := initTokens }
        pexpire := some (resetBucketInterval * 10) }
  | some b =>
      let refill : Int × Int :=  -- (currentTokens, new lastRefillTime)
        if curTime ≤ b.lastRefillTime then
          (b.tokensRemaining, b.lastRefillTime)
        else
          let intervalSinceLast := curTime - b.lastRefillTime
          if resetBucketInterval < intervalSinceLast then
            -- hard reset to initTokens, lastRefillTime = curTime
            (initTokens, curTime)
          else
            let availableTokens := Int.fdiv intervalSinceLast intervalPerPermit
            let lastRefill' :=
              if 0 < availableTokens then
                curTime - Int.tmod intervalSinceLast intervalPerPermit
              else b.lastRefillTime
            (min (availableTokens + b.tokensRemaining) bucketMaxTokens,
              lastRefill')
      let currentTokens := refill.1
      -- tokensCount = currentTokens; decrement and persist only when positive
      if 0 < currentTokens then
        { ret := currentTokens
          bucket := { lastRefillTime := refill.2
                      tokensRemaining := currentTokens - 1 }
          pexpire := none }
      else
        { ret := currentTokens
          bucket := { lastRefillTime := refill.2
                      tokensRemaining := b.tokensRemaining }
          pexpire := none }

/-! ## Leaky Bucket procedure (`luaScriptMap["LeakyBucketScript"]`)

The procedure's numeric-validation guard (`if not capacity ... then return 0`)
cannot fire in this embedding: the Go caller always passes three `int64`
arguments, so `tonumber` never yields `nil` (the claims quantify over valid
numeric inputs). -/

/-- Stored fields of the leaky-bucket hash. -/
structure LeakyBucket where
  currentWater : Int
  lastLeakTime : Int
deriving DecidableEq, Repr

/-- The water level after the leak: `newWater = math.max(0, currentWater -
math.floor(elapsedTime * leakRate))`, where `currentWater` reads as 0 and
`lastLeakTime` as `curTime` when the key is absent.  `math.floor` is exact on
the integer arguments the Go side passes. -/
def leakyNewWater (leakRate curTime : Int) (st : Option LeakyBucket) : Int :=
  max 0 ((st.map (·.currentWater)).getD 0 -
    (curTime - (st.map (·.lastLeakTime)).getD curTime) * leakRate)

/-- The Leaky Bucket Lua procedure.  `none` models an absent key. -/
def leakyBucketScript (capacity leakRate curTime : Int)
    (st : Option LeakyBucket) : Int × LeakyBucket :=
  let newWater := leakyNewWater leakRate curTime st
  -- HMSET currentWater=newWater lastLeakTime=curTime, unconditionally
  if newWater < capacity then
    -- admit: HINCRBY currentWater 1, return 1
    (1, { currentWater := newWater + 1, lastLeakTime := curTime })
  else
    (0, { currentWater := newWater, lastLeakTime := curTime })

/-- Run the Leaky Bucket procedure over a sequence of call times, starting from
a given key state. -/
def leakyRunFrom (capacity leakRate : Int) (st : Option LeakyBucket)
    (times : List Int) : Option LeakyBucket :=
  match times with
  | [] => st
  | t :: ts =>
      leakyRunFrom capacity leakRate
        (some (leakyBucketScript capacity leakRate t st).2) ts

/-! ## Script loading (`init.go`)

`loadRedisScript` declares `var onece sync.Once` as a function-local variable,
so every call creates a fresh, never-fired `sync.Once` and `onece.Do` always
executes its body.  The embedding makes that explicit: each call unconditionally
re-runs the whole load sequence.  A ghost counter `loadSequences` counts how
many full load sequences have been executed. -/

/-- ScriptSha: the digests of the four loaded scripts (`init.go`); an empty
string marks a script whose load failed. -/
structure ScriptSha where
  FixedWindow : String
  SlideWindow : String
  TokenBucket : String
  LeakyBucket : String
deriving DecidableEq, Repr

/-- One full load sequence: attempt `LoadScript` for each of the four scripts;
`loads ty` is the digest the store returns, `none` on failure.  A failed load
leaves that field at its zero value `""` and does not abort the others. -/
def loadScriptSequence (loads : LimiterType → Option String) : ScriptSha :=
  { FixedWindow := (loads .FixedWindow).getD ""
    SlideWindow := (loads .SlideWindow).getD ""
    TokenBucket := (loads .TokenBucket).getD ""
    LeakyBucket := (loads .LeakyBucket).getD "" }

/-- Process-wide state relevant to script loading: the `ScriptShas` global
(`none` before any load) and the ghost count of executed load sequences. -/
structure InitState where
  scriptShas : Option ScriptSha
  loadSequences : Nat
deriving DecidableEq, Repr

/-- One call to `loadRedisScript`.  Because its `sync.Once` guard is a fresh
function-local variable on every call, the guarded body always runs: the call
rebuilds `ScriptShas` from scratch and performs a full load sequence. -/
def loadRedisScript (loads : LimiterType → Option String) (st : InitState) :
    InitState :=
  { scriptShas := some (loadScriptSequence loads)
    loadSequences := st.loadSequences + 1 }

/-! ## Configuration normalization (`initOptions`)

The repository carries two iterations of the limiter.  `limiter.go` names the
Fixed Window fields `limitCount`/`unitTime`/`expiration` and, when `expiration`
is unset, assigns the constant 300.  The other iteration
(`src/unnamed/part_004`) names them `LimitCount`/`TimeRange`/`Expiration`,
defaults `LimitCount` and `TimeRange` to 1, and clamps `TimeRange * 2` into
[300, 600] when `Expiration` is unset.  Both are embedded. -/

/-- fixedWindowOptions as in `limiter.go`. -/
structure fixedWindowOptions where
  limitCount : Int
  unitTime : Int
  expiration : Int
deriving DecidableEq, Repr

/-- The Fixed Window branch of `initOptions` in `limiter.go`: an unset (zero)
expiration becomes the constant 300; nothing else is touched. -/
def initOptionsFixedWindow (opt : fixedWindowOptions) : fixedWindowOptions :=
  if opt.expiration = 0 then { opt with expiration := 300 } else opt

/-- fixedWindowOptions as in the other iteration (`src/unnamed/part_004`). -/
structure fixedWindowOptionsV2 where
  LimitCount : Int
  TimeRange : Int
  Expiration : Int
deriving DecidableEq, Repr

/-- The Fixed Window branch of `initOptions` in `src/unnamed/part_004`:
zero `LimitCount` and `TimeRange` default to 1; an unset (zero) `Expiration`
becomes `TimeRange * 2` clamped into [300, 600]. -/
def initOptionsFixedWindowV2 (opt : fixedWindowOptionsV2) :
    fixedWindowOptionsV2 :=
  let limitCount := if opt.LimitCount = 0 then 1 else opt.LimitCount
  let timeRange := if opt.TimeRange = 0 then 1 else opt.TimeRange
  let expiration :=
    if opt.Expiration = 0 then
      let e := timeRange * 2
      if 600 < e then 600 else if e < 300 then 300 else e
    else opt.Expiration
  { LimitCount := limitCount, TimeRange := timeRange, Expiration := expiration }

/-! ## Key derivation (`genLimiterKey`, `limiter.go`)

`RedisKeyPrefix = "dlimiter"`.  For Fixed Window the suffix starts with the
time bucket `math.Floor(unix / unitTime)`; for every type, when the relevant
limit magnitude exceeds `MaxBucketCapacity` a shard index
`time.Now().Nanosecond() % ceil(limit / MaxBucketCapacity)` is appended (Go's
`%` is truncating, `Int.tmod`).  `cast.ToString` of an integral float prints
the plain integer, embedded as `toString` of the `Int`. -/

/-- The shard suffix component: 0 when the limit is within a single shard,
otherwise the nanosecond-based index modulo the shard count. -/
def genShardIndex (limitCount nanosecond : Int) : Int :=
  if MaxBucketCapacity < limitCount then
    Int.tmod nanosecond (ceilDivInt limitCount MaxBucketCapacity)
  else 0

/-- The limit magnitude `genLimiterKey` reads for each type: Fixed/Slide Window
use `limitCount`, Token Bucket uses `maxTokens`, Leaky Bucket uses `leakRate`
(all passed here as one `limitCount` argument by the caller of this model). -/
def genLimiterKey (lt : LimiterType) (product : String)
    (limitCount unixTime unitTime nanosecond : Int) : String :=
  let suffix0 : String :=
    match lt with
    | .FixedWindow => toString (Int.fdiv unixTime unitTime)
    | _ => ""
  let m := genShardIndex limitCount nanosecond
  let suffix := if suffix0 = "" then toString m
    else suffix0 ++ "::" ++ toString m
  "dlimiter" ++ "::" ++ lt.name ++ "::" ++ product ++ "::" ++ suffix

/-! ## Decision execution (`Do` and the four `doXxxLimiter`, `limiter.go`)

The store round trip is external: each invocation is parameterized by the
outcome of the EVALSHA attempt and the outcome the EVAL fallback would have
(`Except` an error message, or the script's integer result). -/

/-- The digest-first, source-fallback invocation protocol shared by all four
`doXxxLimiter` functions: if EVALSHA fails with exactly `NoScriptMsg`, the
result is that of one EVAL fallback; any other outcome stands. -/
def invokeScript (shaRes evalRes : Except String Int) : Except String Int :=
  match shaRes with
  | .error e => if e = NoScriptMsg then evalRes else .error e
  | .ok v => .ok v

/-- Common tail of each `doXxxLimiter`: on error return `(0, err)`, otherwise
`(cast.ToInt64(res), nil)`. -/
def doLimiterResult (outcome : Except String Int) : Int × Option String :=
  match outcome with
  | .error e => (0, some e)
  | .ok v => (v, none)

/-- `doFixedWindowLimiter`: invoke the Fixed Window script digest-first. -/
def doFixedWindowLimiter (shaRes evalRes : Except String Int) :
    Int × Option String :=
  doLimiterResult (invokeScript shaRes evalRes)

/-- `doSlideWindowLimiter`: invoke the Sliding Window script digest-first. -/
def doSlideWindowLimiter (shaRes evalRes : Except String Int) :
    Int × Option String :=
  doLimiterResult (invokeScript shaRes evalRes)

/-- `doTokenBucketLimiter`: invoke the Token Bucket script digest-first. -/
def doTokenBucketLimiter (shaRes evalRes : Except String Int) :
    Int × Option String :=
  doLimiterResult (invokeScript shaRes evalRes)

/-- `doLeakyBucketLimiter`: invoke the Leaky Bucket script digest-first. -/
def doLeakyBucketLimiter (shaRes evalRes : Except String Int) :
    Int × Option String :=
  doLimiterResult (invokeScript shaRes evalRes)

/-- `Do`: dispatch on the limiter type (`initOptions` always returns nil, and
the extension hooks run after the result is fixed and do not change it). -/
def RateLimiterDo (lt : LimiterType) (shaRes evalRes : Except String Int) :
    Int × Option String :=
  match lt with
  | .FixedWindow => doFixedWindowLimiter shaRes evalRes
  | .SlideWindow => doSlideWindowLimiter shaRes evalRes
  | .TokenBucket => doTokenBucketLimiter shaRes evalRes
  | .LeakyBucket => doLeakyBucketLimiter shaRes evalRes

/-! ## Decision notification pipeline (`src/unnamed/part_005`)

`recordChan` is a buffered channel of capacity 10000 drained by the single
goroutine `processRecords`; `handlers` is a Go `map[string]RecordHandler`
guarded by a reader-writer lock.  A Go map does not remember insertion order
and `for ... range` over it enumerates entries in an unspecified (randomized)
order, so dispatch order is modelled as an arbitrary permutation of the
registered entries. -/

/-- LimiterRecord: one decision record (`src/unnamed/part_005`).  The source
field `Type` is renamed `LType` (`Type` is reserved in Lean); the error is its
message, `none` for a nil error. -/
structure LimiterRecord where
  LType : LimiterType
  Key : String
  Result : Int
  Timestamp : Int
  Error : Option String
deriving DecidableEq, Repr

/-- Capacity of `recordChan` (`make(chan LimiterRecord, 10000)`). -/
def recordChanCap : Nat := 10000

/-- Modelled from the spec: the non-blocking publish step the engine performs
after every decision (a `select`-with-default send on `recordChan`).  The send
itself does not appear in `src/` — only the channel, the dispatcher
`processRecords` and the observer registry do — so this step follows §4.4/§4.6
of the spec: append the record when the bounded queue has room, otherwise drop
it silently; the caller is never blocked. -/
def publishRecord (queue : List LimiterRecord) (rec : LimiterRecord) :
    List LimiterRecord :=
  if queue.length < recordChanCap then queue ++ [rec] else queue

/-- Modelled from the spec: one decision call together with its publication.
The decision itself is `RateLimiterDo`; exactly one record carrying the call's
result and error is built and published, and publication leaves the value
returned to the caller untouched. -/
def doWithRecord (lt : LimiterType) (shaRes evalRes : Except String Int)
    (key : String) (ts : Int) (queue : List LimiterRecord) :
    (Int × Option String) × List LimiterRecord :=
  let r := RateLimiterDo lt shaRes evalRes
  (r, publishRecord queue
    { LType := lt, Key := key, Result := r.1, Timestamp := ts, Error := r.2 })

/-- `RegisterHandler`: insert into the `handlers` map (overwriting an existing
entry of the same name).  The list tracks registration order for the purpose of
stating the ordering claim; the underlying Go map retains no such order. -/
def registerHandler (hs : List (String × Nat)) (name : String) (h : Nat) :
    List (String × Nat) :=
  if hs.any (fun p => p.1 = name) then
    hs.map (fun p => if p.1 = name then (name, h) else p)
  else hs ++ [(name, h)]

/-- The iteration orders `for ... range handlers` may produce: any permutation
of the map's entries (Go deliberately randomizes map iteration order). -/
def MapIterOrder (hs order : List (String × Nat)) : Prop :=
  order.Perm hs

/-- The dispatch `processRecords` performs for one record under a given map
iteration order: each enumerated handler receives the record once, in
enumeration order. -/
def deliveries (order : List (String × Nat)) (rec : LimiterRecord) :
    List (Nat × LimiterRecord) :=
  order.map (fun p => (p.2, rec))

/-! ## Theorems -/

/-- C1: the Fixed Window procedure with limit `L` and stored counter `c` (0 when
the key is absent) returns 0 and leaves the counter and its expiration
unchanged when `c >= L`; otherwise it increments the counter to `c + 1`, sets
the key's expiration exactly when the post-increment value is 1, and returns
`L - (c + 1) + 1`.  Consequently with limit 10 the first 10 calls in one window
return 10, 9, ..., 1 and the 11th returns 0. -/
theorem fixedWindow_claim_C1 (limit : Int) (tr ex : Option Int)
    (st : FixedWindowState) :
    (limit ≤ st.counter → fixedWindowScript limit tr ex st = (0, st)) ∧
    (st.counter < limit →
      (fixedWindowScript limit tr ex st).1 = limit - (st.counter + 1) + 1 ∧
      (fixedWindowScript limit tr ex st).2.counter = st.counter + 1 ∧
      (fixedWindowScript limit tr ex st).2.expire =
        (if st.counter + 1 = 1 then some (ex.getD ((tr.getD 1) * 2))
         else st.expire)) ∧
    fixedWindowRets 10 11 = [10, 9, 8, 7, 6, 5, 4, 3, 2, 1, 0] := by
  refine ⟨fun h => ?_, fun h => ?_, by decide⟩
  · simp [fixedWindowScript, h]
  · have h' : ¬ limit ≤ st.counter := not_le.mpr h
    simp [fixedWindowScript, h']

/-- Witness for C1 at concrete inputs: a denied call (counter at the limit) and
an admitted first call. -/
theorem fixedWindow_claim_C1_witness :
    fixedWindowScript 10 (some 1) (some 300) ⟨10, some 300⟩ =
      (0, ⟨10, some 300⟩) ∧
    (fixedWindowScript 10 (some 1) (some 300) ⟨0, none⟩).1 = 10 := by
  constructor
  · exact (fixedWindow_claim_C1 10 (some 1) (some 300) ⟨10, some 300⟩).1
      (by decide)
  · have h := ((fixedWindow_claim_C1 10 (some 1) (some 300) ⟨0, none⟩).2.1
      (by decide)).1
    simpa using h

/-- Helper: the common result-normalization tail of the `doXxxLimiter`
functions returns 0 alongside any error, and an error-free positive value. -/
theorem doLimiterResult_err (outcome : Except String Int) :
    ((doLimiterResult outcome).2 ≠ none → (doLimiterResult outcome).1 = 0) ∧
    (0 < (doLimiterResult outcome).1 → (doLimiterResult outcome).2 = none) := by
  cases outcome <;> simp [doLimiterResult]

/-- C10: whenever `Do()` returns a non-nil error its integer result is 0, and a
positive result is returned only together with a nil error, for every
algorithm type. -/
theorem do_claim_C10 (lt : LimiterType) (shaRes evalRes : Except String Int) :
    ((RateLimiterDo lt shaRes evalRes).2 ≠ none →
      (RateLimiterDo lt shaRes evalRes).1 = 0) ∧
    (0 < (RateLimiterDo lt shaRes evalRes).1 →
      (RateLimiterDo lt shaRes evalRes).2 = none) := by
  cases lt <;>
    simpa [RateLimiterDo, doFixedWindowLimiter, doSlideWindowLimiter,
      doTokenBucketLimiter, doLeakyBucketLimiter] using
      doLimiterResult_err (invokeScript shaRes evalRes)

/-- Witness for C10: a failing store round trip (an error that is not the
cache-miss sentinel) yields a non-nil error together with the value 0. -/
theorem do_claim_C10_witness :
    (RateLimiterDo .FixedWindow (.error "connection refused") (.ok 5)).2 ≠
      none ∧
    (RateLimiterDo .FixedWindow (.error "connection refused") (.ok 5)).1 =
      0 := by
  refine ⟨by decide, ?_⟩
  exact (do_claim_C10 .FixedWindow (.error "connection refused") (.ok 5)).1
    (by decide)

/-- C7 (code bug): the `sync.Once` guard in `loadRedisScript` is a function
LOCAL variable, so each call re-runs the entire load sequence: after two calls
two full load sequences have executed, not the at-most-one the claim states.
The partial-success half of the claim does hold: a failed load leaves that
script's digest empty (`""`) without aborting the other loads. -/
theorem loadRedisScript_claim_C7 :
    (loadRedisScript (fun _ => some "sha")
        (loadRedisScript (fun _ => some "sha") ⟨none, 0⟩)).loadSequences = 2 ∧
    ¬ (loadRedisScript (fun _ => some "sha")
        (loadRedisScript (fun _ => some "sha") ⟨none, 0⟩)).loadSequences = 1 ∧
    loadScriptSequence
        (fun ty => if ty = .FixedWindow then none else some "sha") =
      { FixedWindow := "", SlideWindow := "sha", TokenBucket := "sha",
        LeakyBucket := "sha" } := by
  refine ⟨rfl, by decide, by rfl⟩

/-- C8 counterexample: with window 200 s and expiration unset, the
`initOptions` in `limiter.go` sets the expiration to the constant 300, not to
`clamp(window * 2, 300, 600) = 400` as the claim states. -/
theorem initOptions_claim_C8_counterexample :
    (initOptionsFixedWindow
      { limitCount := 10, unitTime := 200, expiration := 0 }).expiration =
      300 ∧
    ¬ (initOptionsFixedWindow
      { limitCount := 10, unitTime := 200, expiration := 0 }).expiration =
      min (max ((200 : Int) * 2) 300) 600 := by
  constructor <;> decide

/-- C8 as amended: for a Fixed Window limiter whose caller left the expiration
unset (zero), the `initOptions` of `limiter.go` sets the expiration to the
constant 300, while the `initOptions` of the repository's other iteration
(`src/unnamed/part_004`) sets it to `clamp(window * 2, 300, 600)` (after
defaulting a zero window to 1); in both iterations an explicitly set
expiration is never overridden. -/
theorem initOptions_claim_C8 :
    (∀ opt : fixedWindowOptions, opt.expiration = 0 →
      (initOptionsFixedWindow opt).expiration = 300 ∧
      (initOptionsFixedWindow opt).limitCount = opt.limitCount ∧
      (initOptionsFixedWindow opt).unitTime = opt.unitTime) ∧
    (∀ opt : fixedWindowOptions, ¬ opt.expiration = 0 →
      initOptionsFixedWindow opt = opt) ∧
    (∀ opt : fixedWindowOptionsV2, opt.Expiration = 0 →
      (initOptionsFixedWindowV2 opt).Expiration =
        min (max ((if opt.TimeRange = 0 then 1 else opt.TimeRange) * 2) 300)
          600) ∧
    (∀ opt : fixedWindowOptionsV2, ¬ opt.Expiration = 0 →
      (initOptionsFixedWindowV2 opt).Expiration = opt.Expiration) := by
  refine ⟨fun opt h => ?_, fun opt h => ?_, fun opt h => ?_, fun opt h => ?_⟩
  · simp [initOptionsFixedWindow, h]
  · simp [initOptionsFixedWindow, h]
  · simp only [initOptionsFixedWindowV2, h, if_true]
    rcases le_or_lt ((if opt.TimeRange = 0 then 1 else opt.TimeRange) * 2) 600
      with h6 | h6 <;>
      rcases le_or_lt 300 ((if opt.TimeRange = 0 then 1 else opt.TimeRange) * 2)
        with h3 | h3 <;>
      simp [min_def, max_def] <;> omega
  · simp [initOptionsFixedWindowV2, h]

/-- Witness for C8 (amended) at concrete inputs: unset and explicitly set
expirations through both iterations of `initOptions`. -/
theorem initOptions_claim_C8_witness :
    (initOptionsFixedWindow
      { limitCount := 5, unitTime := 2, expiration := 0 }).expiration = 300 ∧
    initOptionsFixedWindow
      { limitCount := 5, unitTime := 2, expiration := 120 } =
      { limitCount := 5, unitTime := 2, expiration := 120 } ∧
    (initOptionsFixedWindowV2
      { LimitCount := 5, TimeRange := 200, Expiration := 0 }).Expiration =
      400 ∧
    (initOptionsFixedWindowV2
      { LimitCount := 5, TimeRange := 200, Expiration := 700 }).Expiration =
      700 := by
  refine ⟨(initOptions_claim_C8.1 _ rfl).1, initOptions_claim_C8.2.1 _
    (by decide), ?_, initOptions_claim_C8.2.2.2 _ (by decide)⟩
  have h := initOptions_claim_C8.2.2.1
    { LimitCount := 5, TimeRange := 200, Expiration := 0 } rfl
  simpa using h

/-- C9: when the limit magnitude is within the per-shard threshold (5000), key
derivation is deterministic — two calls with identical inputs and the same
Fixed Window time bucket (the derivation's only time dependence besides the
nanosecond seed, which is then unused) yield the identical key; every derived
key is prefixed by the namespace tag `"dlimiter"` and the algorithm type name;
and when the limit exceeds the threshold the appended shard index lies in
`[0, ceil(limit / 5000))`. -/
theorem genLimiterKey_claim_C9 :
    (∀ (lt : LimiterType) (product : String) (limit u1 u2 w ns1 ns2 : Int),
      limit.natAbs ≤ 5000 →
      Int.fdiv u1 w = Int.fdiv u2 w →
      genLimiterKey lt product limit u1 w ns1 =
        genLimiterKey lt product limit u2 w ns2) ∧
    (∀ (lt : LimiterType) (product : String) (limit u w ns : Int),
      ∃ rest, genLimiterKey lt product limit u w ns =
        "dlimiter" ++ "::" ++ lt.name ++ "::" ++ rest) ∧
    (∀ (limit ns : Int), 5000 < limit → 0 ≤ ns →
      0 ≤ genShardIndex limit ns ∧
        genShardIndex limit ns < ceilDivInt limit 5000) := by
  refine ⟨fun lt product limit u1 u2 w ns1 ns2 hmag hfd => ?_,
    fun lt product limit u w ns => ?_, fun limit ns hlt hns => ?_⟩
  · have hng : ¬ MaxBucketCapacity < limit := by
      simp only [MaxBucketCapacity]
      omega
    cases lt <;> simp [genLimiterKey, genShardIndex, hng, hfd]
  · cases lt
    · exact ⟨product ++ ("::" ++
        (if toString (Int.fdiv u w) = "" then toString (genShardIndex limit ns)
         else toString (Int.fdiv u w) ++
           ("::" ++ toString (genShardIndex limit ns)))),
        by simp [genLimiterKey, String.append_assoc]⟩
    · exact ⟨product ++ ("::" ++ toString (genShardIndex limit ns)),
        by simp [genLimiterKey, String.append_assoc]⟩
    · exact ⟨product ++ ("::" ++ toString (genShardIndex limit ns)),
        by simp [genLimiterKey, String.append_assoc]⟩
    · exact ⟨product ++ ("::" ++ toString (genShardIndex limit ns)),
        by simp [genLimiterKey, String.append_assoc]⟩
  · have hd : 0 < ceilDivInt limit 5000 := by
      have h1 : (-limit) / 5000 ≤ (-5001) / 5000 :=
        Int.ediv_le_ediv (by norm_num) (by omega)
      have h2 : ((-5001 : Int)) / 5000 = -2 := by decide
      simp only [ceilDivInt]
      omega
    have hidx : genShardIndex limit ns =
        Int.tmod ns (ceilDivInt limit 5000) := by
      simp [genShardIndex, MaxBucketCapacity, hlt]
    rw [hidx, Int.tmod_eq_emod hns (le_of_lt hd)]
    exact ⟨Int.emod_nonneg ns (ne_of_gt hd), Int.emod_lt_of_pos ns hd⟩

/-- Witness for C9 at concrete inputs: two derivations with different
nanosecond seeds and different times in the same window bucket agree below the
threshold, and above the threshold a concrete shard index lies in range. -/
theorem genLimiterKey_claim_C9_witness :
    genLimiterKey .TokenBucket "credit" 100 5 10 1 =
      genLimiterKey .TokenBucket "credit" 100 9 10 2 ∧
    (∃ rest, genLimiterKey .FixedWindow "credit" 100 5 10 7 =
      "dlimiter" ++ "::" ++ LimiterType.name .FixedWindow ++ "::" ++ rest) ∧
    0 ≤ genShardIndex 12000 7 ∧
      genShardIndex 12000 7 < ceilDivInt 12000 5000 := by
  refine ⟨genLimiterKey_claim_C9.1 .TokenBucket "credit" 100 5 9 10 1 2
      (by decide) (by decide),
    genLimiterKey_claim_C9.2.1 .FixedWindow "credit" 100 5 10 7,
    genLimiterKey_claim_C9.2.2 12000 7 (by decide) (by decide)⟩

/-- C5: the first Token Bucket invocation on a key with no stored state stores
`lastRefillTime = currentTime` and `tokensRemaining = initTokens`, sets the
key's expiration to `10 * resetBucketInterval` milliseconds, and returns
`max(1, initTokens)` without decrementing; any invocation with
`currentTime <= lastRefillTime` returns the stored token count with no refill
and leaves `lastRefillTime` unchanged — so with `initTokens = 0`
(maxTokens 5, resetInterval 1000 ms, hence intervalPerPermit 200 ms) the first
call at t = 0 returns 1 and a second call at the same timestamp returns 0. -/
theorem tokenBucket_claim_C5 (intervalPerPermit curTime bucketMaxTokens
    resetBucketInterval initTokens : Int) (b : TokenBucket) :
    (tokenBucketScript intervalPerPermit curTime bucketMaxTokens
        resetBucketInterval initTokens none =
      { ret := max 1 initTokens
        bucket := { lastRefillTime := curTime, tokensRemaining := initTokens }
        pexpire := some (resetBucketInterval * 10) }) ∧
    (curTime ≤ b.lastRefillTime →
      (tokenBucketScript intervalPerPermit curTime bucketMaxTokens
          resetBucketInterval initTokens (some b)).ret = b.tokensRemaining ∧
      (tokenBucketScript intervalPerPermit curTime bucketMaxTokens
          resetBucketInterval initTokens
          (some b)).bucket.lastRefillTime = b.lastRefillTime) ∧
    (tokenBucketScript 200 0 5 1000 0 none).ret = 1 ∧
    (tokenBucketScript 200 0 5 1000 0
      (some { lastRefillTime := 0, tokensRemaining := 0 })).ret = 0 := by
  refine ⟨rfl, fun h => ?_, by decide, by decide⟩
  by_cases hp : 0 < b.tokensRemaining <;>
    simp [tokenBucketScript, h, hp]

/-- Witness for C5 at concrete inputs, instantiating the idempotent-read case
at a duplicate timestamp with a positive stored count. -/
theorem tokenBucket_claim_C5_witness :
    (tokenBucketScript 200 7 5 1000 0
      (some { lastRefillTime := 7, tokensRemaining := 3 })).ret = 3 ∧
    (tokenBucketScript 200 7 5 1000 0
      (some ⟨7, 3⟩)).bucket.lastRefillTime = 7 := by
  exact (tokenBucket_claim_C5 200 7 5 1000 0
    { lastRefillTime := 7, tokensRemaining := 3 }).2.1 (by decide)

/-- C2: a Token Bucket invocation on an initialized key with
`currentTime > lastRefillTime`: when the elapsed time exceeds
`resetBucketInterval` the working token count becomes exactly `initTokens`
(not added) and `lastRefillTime` becomes `currentTime`; otherwise
`availableTokens = floor(elapsed / intervalPerPermit)` and, when positive,
`lastRefillTime` advances to `currentTime - elapsed mod intervalPerPermit`
(carrying the fractional remainder forward) and the count becomes
`min(availableTokens + tokensRemaining, bucketMaxTokens)`.  In every case the
return value is the pre-decrement count, and exactly one token is decremented
and persisted iff that count is positive (otherwise the stored
`tokensRemaining` field is not written). -/
theorem tokenBucket_claim_C2 (intervalPerPermit curTime bucketMaxTokens
    resetBucketInterval initTokens : Int) (b : TokenBucket)
    (hlt : b.lastRefillTime < curTime) (hipp : 0 < intervalPerPermit) :
    (resetBucketInterval < curTime - b.lastRefillTime →
      (tokenBucketScript intervalPerPermit curTime bucketMaxTokens
          resetBucketInterval initTokens (some b)).ret = initTokens ∧
      (tokenBucketScript intervalPerPermit curTime bucketMaxTokens
          resetBucketInterval initTokens
          (some b)).bucket.lastRefillTime = curTime) ∧
    (curTime - b.lastRefillTime ≤ resetBucketInterval →
      (tokenBucketScript intervalPerPermit curTime bucketMaxTokens
          resetBucketInterval initTokens (some b)).ret =
        min ((curTime - b.lastRefillTime) / intervalPerPermit +
          b.tokensRemaining) bucketMaxTokens ∧
      (0 < (curTime - b.lastRefillTime) / intervalPerPermit →
        (tokenBucketScript intervalPerPermit curTime bucketMaxTokens
            resetBucketInterval initTokens (some b)).bucket.lastRefillTime =
          curTime - (curTime - b.lastRefillTime) % intervalPerPermit)) ∧
    (0 < (tokenBucketScript intervalPerPermit curTime bucketMaxTokens
        resetBucketInterval initTokens (some b)).ret →
      (tokenBucketScript intervalPerPermit curTime bucketMaxTokens
          resetBucketInterval initTokens (some b)).bucket.tokensRemaining =
        (tokenBucketScript intervalPerPermit curTime bucketMaxTokens
          resetBucketInterval initTokens (some b)).ret - 1) ∧
    ((tokenBucketScript intervalPerPermit curTime bucketMaxTokens
        resetBucketInterval initTokens (some b)).ret ≤ 0 →
      (tokenBucketScript intervalPerPermit curTime bucketMaxTokens
          resetBucketInterval initTokens (some b)).bucket.tokensRemaining =
        b.tokensRemaining) := by
  have hn : ¬ curTime ≤ b.lastRefillTime := not_le.mpr hlt
  have he : (0 : Int) < curTime - b.lastRefillTime := by omega
  have hfd : Int.fdiv (curTime - b.lastRefillTime) intervalPerPermit =
      (curTime - b.lastRefillTime) / intervalPerPermit :=
    Int.fdiv_eq_ediv _ (le_of_lt hipp)
  have htm : Int.tmod (curTime - b.lastRefillTime) intervalPerPermit =
      (curTime - b.lastRefillTime) % intervalPerPermit :=
    Int.tmod_eq_emod (le_of_lt he) (le_of_lt hipp)
  refine ⟨fun hreset => ?_, fun hnores => ?_, ?_, ?_⟩
  · by_cases hp : 0 < initTokens <;>
      simp [tokenBucketScript, hn, hreset, hp]
  · have hr : ¬ resetBucketInterval < curTime - b.lastRefillTime :=
      not_lt.mpr hnores
    rw [← hfd, ← htm]
    by_cases hp : 0 < min (Int.fdiv (curTime - b.lastRefillTime)
        intervalPerPermit + b.tokensRemaining) bucketMaxTokens <;>
      by_cases ha : 0 < Int.fdiv (curTime - b.lastRefillTime)
        intervalPerPermit <;>
      simp [tokenBucketScript, hn, hr, hp, ha]
  · rcases lt_or_le resetBucketInterval (curTime - b.lastRefillTime) with
      hcase | hcase
    · by_cases hp : 0 < initTokens <;>
        simp [tokenBucketScript, hn, hcase, hp]
    · have hr : ¬ resetBucketInterval < curTime - b.lastRefillTime :=
        not_lt.mpr hcase
      by_cases hp : 0 < min (Int.fdiv (curTime - b.lastRefillTime)
          intervalPerPermit + b.tokensRemaining) bucketMaxTokens <;>
        by_cases ha : 0 < Int.fdiv (curTime - b.lastRefillTime)
          intervalPerPermit <;>
        simp [tokenBucketScript, hn, hr, hp, ha]
  · rcases lt_or_le resetBucketInterval (curTime - b.lastRefillTime) with
      hcase | hcase
    · by_cases hp : 0 < initTokens <;>
        simp [tokenBucketScript, hn, hcase, hp]
    · have hr : ¬ resetBucketInterval < curTime - b.lastRefillTime :=
        not_lt.mpr hcase
      by_cases hp : 0 < min (Int.fdiv (curTime - b.lastRefillTime)
          intervalPerPermit + b.tokensRemaining) bucketMaxTokens <;>
        by_cases ha : 0 < Int.fdiv (curTime - b.lastRefillTime)
          intervalPerPermit <;>
        simp [tokenBucketScript, hn, hr, hp, ha] <;> omega

/-- Witness for C2 at concrete inputs: intervalPerPermit 100 ms, a bucket last
refilled at t = 0 holding 1 token, invoked at t = 250 with resetInterval
1000 ms and capacity 5: two tokens refill, the remainder 50 ms carries
forward, the pre-decrement count 3 is returned and 2 is persisted. -/
theorem tokenBucket_claim_C2_witness :
    (tokenBucketScript 100 250 5 1000 0 (some ⟨0, 1⟩)).ret =
      min ((250 - 0) / 100 + 1) 5 ∧
    (tokenBucketScript 100 250 5 1000 0
      (some ⟨0, 1⟩)).bucket.lastRefillTime = 250 - (250 - 0) % 100 ∧
    (tokenBucketScript 100 250 5 1000 0 (some ⟨0, 1⟩)).bucket.tokensRemaining =
      (tokenBucketScript 100 250 5 1000 0 (some ⟨0, 1⟩)).ret - 1 := by
  have h := tokenBucket_claim_C2 100 250 5 1000 0 ⟨0, 1⟩ (by decide) (by decide)
  exact ⟨(h.2.1 (by decide)).1, (h.2.1 (by decide)).2 (by decide),
    h.2.2.1 (by decide)⟩

/-- Helper for C4: one Leaky Bucket step, from a state whose water is within
bounds and whose last-leak time does not exceed the call time, keeps the water
within `[0, capacity + 1]` and stamps the call time into `lastLeakTime`. -/
theorem leakyStep_bounds (capacity leakRate curTime : Int)
    (hcap : 0 ≤ capacity) (hrate : 0 ≤ leakRate) (st : Option LeakyBucket)
    (h : ∀ b, st = some b → 0 ≤ b.currentWater ∧
      b.currentWater ≤ capacity + 1 ∧ b.lastLeakTime ≤ curTime) :
    0 ≤ (leakyBucketScript capacity leakRate curTime st).2.currentWater ∧
    (leakyBucketScript capacity leakRate curTime st).2.currentWater ≤
      capacity + 1 ∧
    (leakyBucketScript capacity leakRate curTime st).2.lastLeakTime =
      curTime := by
  cases st with
  | none =>
      by_cases hc : (0 : Int) < capacity <;>
        simp [leakyBucketScript, leakyNewWater, hc] <;> omega
  | some b =>
      obtain ⟨h0, h1, h2⟩ := h b rfl
      have hleak : 0 ≤ (curTime - b.lastLeakTime) * leakRate :=
        mul_nonneg (by omega) hrate
      have hval : leakyNewWater leakRate curTime (some b) =
          max 0 (b.currentWater - (curTime - b.lastLeakTime) * leakRate) := by
        simp [leakyNewWater]
      have hnw0 : 0 ≤ leakyNewWater leakRate curTime (some b) := by
        rw [hval]
        exact le_max_left _ _
      have hnw1 : leakyNewWater leakRate curTime (some b) ≤ capacity + 1 := by
        rw [hval]
        exact max_le (by omega) (by omega)
      by_cases hadm : leakyNewWater leakRate curTime (some b) < capacity <;>
        simp [leakyBucketScript, hadm] <;> omega

/-- Helper for C4: running the Leaky Bucket procedure over a nondecreasing
sequence of call times, from a state within bounds whose last-leak time does
not exceed the first call time, ends within bounds. -/
theorem leakyRunFrom_inv (capacity leakRate : Int) (hcap : 0 ≤ capacity)
    (hrate : 0 ≤ leakRate) :
    ∀ (times : List Int) (st : Option LeakyBucket),
      List.Chain' (· ≤ ·) times →
      (∀ b, st = some b → 0 ≤ b.currentWater ∧
        b.currentWater ≤ capacity + 1 ∧
        (∀ t, times.head? = some t → b.lastLeakTime ≤ t)) →
      ∀ b', leakyRunFrom capacity leakRate st times = some b' →
        0 ≤ b'.currentWater ∧ b'.currentWater ≤ capacity + 1 := by
  intro times
  induction times with
  | nil =>
      intro st _ hst b' hrun
      simp only [leakyRunFrom] at hrun
      exact ⟨(hst b' hrun).1, (hst b' hrun).2.1⟩
  | cons t ts ih =>
      intro st hchain hst b' hrun
      simp only [leakyRunFrom] at hrun
      have hstep := leakyStep_bounds capacity leakRate t hcap hrate st
        (fun b hb => ⟨(hst b hb).1, (hst b hb).2.1, (hst b hb).2.2 t rfl⟩)
      refine ih (some (leakyBucketScript capacity leakRate t st).2)
        (List.chain'_cons'.mp hchain).2 ?_ b' hrun
      intro b hb
      obtain rfl : (leakyBucketScript capacity leakRate t st).2 = b :=
        Option.some_injective _ hb
      refine ⟨hstep.1, hstep.2.1, fun t' ht' => ?_⟩
      rw [hstep.2.2]
      exact (List.chain'_cons'.mp hchain).1 t' (Option.mem_def.mpr ht')

/-- C4: every Leaky Bucket invocation persists `lastLeakTime = curTime`
unconditionally and persists the leaked water level
`newWater = max(0, currentWater - floor(elapsed * leakRate))` (as `newWater`
itself when denying, `newWater + 1` when admitting); it admits with return 1
exactly when `newWater < capacity` and returns 0 otherwise.  Consequently,
over every (chronologically nondecreasing) sequence of calls with nonnegative
capacity and leak rate, the stored water level stays within
`[0, capacity + 1]`. -/
theorem leakyBucket_claim_C4 :
    (∀ (capacity leakRate curTime : Int) (st : Option LeakyBucket),
      (leakyBucketScript capacity leakRate curTime st).2.lastLeakTime =
        curTime ∧
      (leakyNewWater leakRate curTime st < capacity →
        (leakyBucketScript capacity leakRate curTime st).1 = 1 ∧
        (leakyBucketScript capacity leakRate curTime st).2.currentWater =
          leakyNewWater leakRate curTime st + 1) ∧
      (capacity ≤ leakyNewWater leakRate curTime st →
        (leakyBucketScript capacity leakRate curTime st).1 = 0 ∧
        (leakyBucketScript capacity leakRate curTime st).2.currentWater =
          leakyNewWater leakRate curTime st)) ∧
    (∀ (capacity leakRate : Int) (times : List Int) (b : LeakyBucket),
      0 ≤ capacity → 0 ≤ leakRate → List.Chain' (· ≤ ·) times →
      leakyRunFrom capacity leakRate none times = some b →
      0 ≤ b.currentWater ∧ b.currentWater ≤ capacity + 1) := by
  constructor
  · intro capacity leakRate curTime st
    refine ⟨?_, fun h => ?_, fun h => ?_⟩
    · by_cases hadm : leakyNewWater leakRate curTime st < capacity <;>
        simp [leakyBucketScript, hadm]
    · simp [leakyBucketScript, h]
    · have h' : ¬ leakyNewWater leakRate curTime st < capacity :=
        not_lt.mpr h
      simp [leakyBucketScript, h']
  · intro capacity leakRate times b hcap hrate hchain hrun
    exact leakyRunFrom_inv capacity leakRate hcap hrate times none hchain
      (fun b hb => by simp at hb) b hrun

/-- Witness for C4 at concrete inputs: an admitted call after a partial leak,
and the invariant after three calls at the same second with capacity 5 and
leak rate 1. -/
theorem leakyBucket_claim_C4_witness :
    (leakyBucketScript 5 1 3 (some ⟨2, 1⟩)).1 = 1 ∧
    0 ≤ ({ currentWater := 3, lastLeakTime := 0 } : LeakyBucket).currentWater ∧
    ({ currentWater := 3, lastLeakTime := 0 } :
      LeakyBucket).currentWater ≤ 5 + 1 := by
  have hstep := (leakyBucket_claim_C4.1 5 1 3 (some ⟨2, 1⟩)).2.1 (by decide)
  have hinv := leakyBucket_claim_C4.2 5 1 [0, 0, 0] ⟨3, 0⟩ (by decide)
    (by decide) (by simp [List.chain'_cons]) (by decide)
  exact ⟨hstep.1, hinv.1, hinv.2⟩

/-- Helper for C3: `HINCRBY` on a field increments that field's stored count by
exactly one. -/
theorem bucketCount_hincrBy_self (field : Int) (l : List (Int × Int)) :
    bucketCount field (hincrBy field l) = bucketCount field l + 1 := by
  unfold hincrBy
  by_cases hany : l.any (fun p => p.1 = field)
  · have hpf : ((fun p : Int × Int => decide (p.1 = field)) ∘
        (fun p : Int × Int => if p.1 = field then (p.1, p.2 + 1) else p)) =
        fun p : Int × Int => decide (p.1 = field) := by
      funext p
      by_cases hp : p.1 = field <;> simp [hp]
    simp only [hany, if_true, bucketCount, List.find?_map, hpf]
    cases hfind : l.find? (fun p => decide (p.1 = field)) with
    | none =>
        obtain ⟨x, hx, hpx⟩ := List.any_eq_true.mp hany
        exact absurd hpx (List.find?_eq_none.mp hfind x hx)
    | some e =>
        have he : e.1 = field := by
          have := List.find?_some hfind
          simpa using this
        simp [hfind, he]
  · have hnone : l.find? (fun p => decide (p.1 = field)) = none := by
      rw [List.find?_eq_none]
      simp only [List.any_eq_true, not_exists, not_and] at hany
      exact fun x hx => hany x hx
    simp only [hany, if_false, Bool.false_eq_true, bucketCount,
      List.find?_append, hnone]
    simp [bucketCount, hnone]

/-- Helper for C3: `HINCRBY` on a field leaves every other field's stored
count unchanged. -/
theorem bucketCount_hincrBy_other (field t : Int) (l : List (Int × Int))
    (h : ¬ t = field) :
    bucketCount t (hincrBy field l) = bucketCount t l := by
  unfold hincrBy
  by_cases hany : l.any (fun p => p.1 = field)
  · have hpf : ((fun p : Int × Int => decide (p.1 = t)) ∘
        (fun p : Int × Int => if p.1 = field then (p.1, p.2 + 1) else p)) =
        fun p : Int × Int => decide (p.1 = t) := by
      funext p
      by_cases hp : p.1 = field <;> simp [hp]
    simp only [hany, if_true, bucketCount, List.find?_map, hpf]
    cases hfind : l.find? (fun p => decide (p.1 = t)) with
    | none => simp
    | some e =>
        have he : e.1 = t := by
          have := List.find?_some hfind
          simpa using this
        have hef : ¬ e.1 = field := by
          rw [he]
          exact h
        simp [hef]
  · have hft : ¬ field = t := fun hc => h hc.symm
    simp only [hany, if_false, Bool.false_eq_true, bucketCount,
      List.find?_append]
    simp [hft]

/-- C3: a Sliding Window invocation computes the live-window sum over the
sub-buckets within `diffVal` of the current truncated time (evicting the
expired sub-buckets as it enumerates, on every call); when that sum already
meets or exceeds the limit it returns 0 with no further mutation — live
sub-bucket counts and the key's expiration are untouched; otherwise it
increments exactly the current sub-bucket's count, refreshes the key's overall
expiration, and returns `limit - sum_before_this_request` (the live-window sum
taken before this request, i.e. excluding it). -/
theorem slideWindow_claim_C3 (limitCount curTime timeRangeSec expiration : Int)
    (st : SlideWindowState) :
    (limitCount ≤ liveSum (slideNewTime curTime (timeRangeSec * 1000))
        (slideDiffVal (timeRangeSec * 1000)) st.buckets →
      slideWindowScript limitCount curTime timeRangeSec expiration st =
        (0, ⟨evictExpired (slideNewTime curTime (timeRangeSec * 1000))
          (slideDiffVal (timeRangeSec * 1000)) st.buckets, st.expire⟩)) ∧
    (liveSum (slideNewTime curTime (timeRangeSec * 1000))
        (slideDiffVal (timeRangeSec * 1000)) st.buckets < limitCount →
      (slideWindowScript limitCount curTime timeRangeSec expiration st).1 =
        limitCount - liveSum (slideNewTime curTime (timeRangeSec * 1000))
          (slideDiffVal (timeRangeSec * 1000)) st.buckets ∧
      bucketCount (slideNewTime curTime (timeRangeSec * 1000))
          (slideWindowScript limitCount curTime timeRangeSec expiration
            st).2.buckets =
        bucketCount (slideNewTime curTime (timeRangeSec * 1000))
          (evictExpired (slideNewTime curTime (timeRangeSec * 1000))
            (slideDiffVal (timeRangeSec * 1000)) st.buckets) + 1 ∧
      (∀ t, ¬ t = slideNewTime curTime (timeRangeSec * 1000) →
        bucketCount t
          (slideWindowScript limitCount curTime timeRangeSec expiration
            st).2.buckets =
        bucketCount t
          (evictExpired (slideNewTime curTime (timeRangeSec * 1000))
            (slideDiffVal (timeRangeSec * 1000)) st.buckets)) ∧
      (slideWindowScript limitCount curTime timeRangeSec expiration
        st).2.expire = some expiration) := by
  constructor
  · intro h
    simp [slideWindowScript, h]
  · intro h
    have h' : ¬ limitCount ≤ liveSum (slideNewTime curTime
        (timeRangeSec * 1000)) (slideDiffVal (timeRangeSec * 1000))
        st.buckets := not_le.mpr h
    refine ⟨by simp [slideWindowScript, h'], ?_, fun t ht => ?_, ?_⟩
    · simp [slideWindowScript, h', bucketCount_hincrBy_self]
    · simp [slideWindowScript, h', bucketCount_hincrBy_other _ _ _ ht]
    · simp [slideWindowScript, h']

/-- Witness for C3 at concrete inputs (window 1 s, so the truncated time is the
raw millisecond time): a denied call that only evicts the expired sub-bucket,
and an admitted call that increments the current sub-bucket and refreshes the
expiration. -/
theorem slideWindow_claim_C3_witness :
    slideWindowScript 3 500 1 60 ⟨[(0, 4), (-2000, 7)], none⟩ =
      (0, ⟨[(0, 4)], none⟩) ∧
    (slideWindowScript 10 500 1 60 ⟨[(0, 4), (-2000, 7)], none⟩).1 = 10 - 4 ∧
    bucketCount 500
        (slideWindowScript 10 500 1 60 ⟨[(0, 4), (-2000, 7)], none⟩).2.buckets =
      bucketCount 500 (evictExpired 500 1000 [(0, 4), (-2000, 7)]) + 1 ∧
    (slideWindowScript 10 500 1 60
      ⟨[(0, 4), (-2000, 7)], none⟩).2.expire = some 60 := by
  have hd := (slideWindow_claim_C3 3 500 1 60
    ⟨[(0, 4), (-2000, 7)], none⟩).1 (by decide)
  have ha := (slideWindow_claim_C3 10 500 1 60
    ⟨[(0, 4), (-2000, 7)], none⟩).2 (by decide)
  refine ⟨by simpa using hd, ha.1, ?_, ha.2.2.2⟩
  simpa using ha.2.1

/-- C6 counterexample: registering "b" then "a" puts the handlers into the
`handlers` map in registration order b, a; the order a, b is an equally
admissible Go map iteration order (a permutation of the entries), and the
dispatch sequence it produces differs from the registration-order dispatch
sequence — so delivery "in registration order" does not hold. -/
theorem record_claim_C6_counterexample :
    MapIterOrder (registerHandler (registerHandler [] "b" 0) "a" 1)
      [("a", 1), ("b", 0)] ∧
    ¬ deliveries [("a", 1), ("b", 0)]
        ⟨.FixedWindow, "k", 1, 0, none⟩ =
      deliveries (registerHandler (registerHandler [] "b" 0) "a" 1)
        ⟨.FixedWindow, "k", 1, 0, none⟩ := by
  constructor
  · show List.Perm _ _
    exact List.Perm.swap _ _ _
  · decide

/-- C6 as amended: every decision call produces exactly one LimiterRecord
carrying that call's result and error, and publishing it never alters or
blocks the decision returned to the caller; the publish step (modelled from
the spec, absent from src/) appends to the bounded queue when it has room and
silently drops the record when the queue is at capacity 10000, never growing
the queue beyond capacity; and for every admissible (unordered) map iteration
order the dispatcher delivers the record to every currently registered
observer exactly once — but in unspecified map order, not registration
order. -/
theorem record_claim_C6 :
    (∀ (lt : LimiterType) (shaRes evalRes : Except String Int) (key : String)
      (ts : Int) (queue : List LimiterRecord),
      (doWithRecord lt shaRes evalRes key ts queue).1 =
        RateLimiterDo lt shaRes evalRes ∧
      (doWithRecord lt shaRes evalRes key ts queue).2 =
        publishRecord queue
          ⟨lt, key, (RateLimiterDo lt shaRes evalRes).1, ts,
            (RateLimiterDo lt shaRes evalRes).2⟩) ∧
    (∀ (queue : List LimiterRecord) (rec : LimiterRecord),
      (queue.length < recordChanCap →
        publishRecord queue rec = queue ++ [rec]) ∧
      (recordChanCap ≤ queue.length → publishRecord queue rec = queue) ∧
      (queue.length ≤ recordChanCap →
        (publishRecord queue rec).length ≤ recordChanCap)) ∧
    (∀ (hs order : List (String × Nat)) (rec : LimiterRecord),
      MapIterOrder hs order →
      (deliveries order rec).Perm (deliveries hs rec)) := by
  refine ⟨fun lt shaRes evalRes key ts queue => ⟨rfl, rfl⟩,
    fun queue rec => ⟨fun h => ?_, fun h => ?_, fun h => ?_⟩,
    fun hs order rec h => List.Perm.map _ h⟩
  · simp [publishRecord, h]
  · simp [publishRecord, not_lt.mpr h]
  · by_cases hq : queue.length < recordChanCap <;>
      simp [publishRecord, hq] <;> omega

/-- Witness for C6 (amended) at concrete inputs: one publish onto an empty
queue, and dispatch of one record under a non-registration iteration order
reaching both registered observers exactly once. -/
theorem record_claim_C6_witness :
    publishRecord [] ⟨.FixedWindow, "k", 1, 0, none⟩ =
      [⟨.FixedWindow, "k", 1, 0, none⟩] ∧
    (deliveries [("a", 1), ("b", 0)] ⟨.FixedWindow, "k", 1, 0, none⟩).Perm
      (deliveries [("b", 0), ("a", 1)] ⟨.FixedWindow, "k", 1, 0, none⟩) := by
  constructor
  · exact (record_claim_C6.2.1 [] ⟨.FixedWindow, "k", 1, 0, none⟩).1
      (by decide)
  · exact record_claim_C6.2.2 [("b", 0), ("a", 1)] [("a", 1), ("b", 0)]
      ⟨.FixedWindow, "k", 1, 0, none⟩ (List.Perm.swap _ _ _)
